import Mathlib

/-!
Shallow embedding of `.circleci/regenerate.py`, the CircleCI build-matrix
generator: the axis tables (`PYTHON_VERSIONS`, the per-OS compute-variant
lists), the image lookups (`get_manylinux_image`, `get_conda_image`), the
per-job builders (`generate_base_workflow`, `generate_upload_workflow`,
`workflow_pair`) and the matrix expansion (`build_workflows`).

Python dictionaries are modelled as insertion-ordered association lists over
the value type `Val`; a job ("workflow") is the single-key dictionary
`{workflow_kind: descriptor}` from the source, modelled as a pair of the kind
key and the descriptor value.  `build_workflows` is modelled up to (and
including) the construction of the job list `w`; the final `indent`/YAML
rendering step and the Jinja template write in `__main__` are outside the
scope of the claims and are not modelled.  Python string operations are
modelled on the character list underlying a `String` (`startswith` is
`List.isPrefixOf` of the pattern's characters, `in` is substring containment,
slicing is `List.drop`).
-/

/-- Values of the Python dictionaries/lists built by the generator:
strings, `None`, lists, and (ordered) dictionaries. -/
inductive Val : Type where
  | vstr : String → Val
  | vnone : Val
  | vlist : List Val → Val
  | vdict : List (String × Val) → Val
deriving Repr

/-- A generated workflow entry `{workflow_kind: descriptor}`:
the kind key paired with the descriptor value. -/
abbrev Job := String × Val

/-- A Python value that is a string or `None` (e.g. the result of an image
lookup that can fall off the end of the function). -/
def optToVal : Option String → Val
  | some s => Val.vstr s
  | none => Val.vnone

/-- Python `needle in haystack` on strings, at the character-list level. -/
def containsSub (needle : List Char) : List Char → Bool
  | [] => needle.isPrefixOf []
  | c :: t => needle.isPrefixOf (c :: t) || containsSub needle (t)

/-- `PYTHON_VERSIONS = ["3.8", "3.9", "3.10", "3.11"]` -/
def PYTHON_VERSIONS : List String := ["3.8", "3.9", "3.10", "3.11"]

/-- `RC_PATTERN = r"/v[0-9]+(\.[0-9]+)*-rc[0-9]+/"` -/
def RC_PATTERN : String := "/v[0-9]+(\\.[0-9]+)*-rc[0-9]+/"

/-- The `cu_versions_dict` lookup from `build_workflows`: the per-OS
compute-variant lists. -/
def cu_versions_dict (os_type : String) : List String :=
  if os_type = "linux" then ["cpu", "cu117", "cu118", "cu121", "rocm5.2", "rocm5.3"]
  else if os_type = "win" then ["cpu", "cu117", "cu118", "cu121"]
  else ["cpu"]

/-- `get_manylinux_image`: wheel builder image lookup.  Returns `none` for the
implicit Python `None` when no branch matches. -/
def get_manylinux_image (cu_version : String) : Option String :=
  if cu_version = "cpu" then
    some "pytorch/manylinux-cpu"
  else if "cu".data.isPrefixOf cu_version.data then
    some ("pytorch/manylinux-cuda" ++ String.mk (cu_version.data.drop "cu".data.length))
  else if "rocm".data.isPrefixOf cu_version.data then
    some ("pytorch/manylinux-rocm:" ++ String.mk (cu_version.data.drop "rocm".data.length))
  else
    none

/-- `get_conda_image`: conda builder image lookup.  Returns `none` for the
implicit Python `None` when no branch matches. -/
def get_conda_image (cu_version : String) : Option String :=
  if cu_version = "cpu" then
    some "pytorch/conda-builder:cpu"
  else if "cu".data.isPrefixOf cu_version.data then
    some ("pytorch/conda-builder:cuda" ++ String.mk (cu_version.data.drop "cu".data.length))
  else
    none

/-- `generate_base_workflow`: builds `{f"binary_{os_type}_{btype}": d}`. -/
def generate_base_workflow (base_workflow_name python_version cu_version : String)
    (unicode : Bool) (os_type btype : String) (filter_branch : Option String) : Job :=
  let d : List (String × Val) :=
    [("name", Val.vstr base_workflow_name),
     ("python_version", Val.vstr python_version),
     ("cu_version", Val.vstr cu_version)]
  let d := if os_type ≠ "win" ∧ unicode then d ++ [("unicode_abi", Val.vstr "1")] else d
  let d :=
    if os_type ≠ "win" then
      let d := d ++ [("wheel_docker_image", optToVal (get_manylinux_image cu_version))]
      -- ROCm conda packages not yet supported
      if ¬ (containsSub "rocm".data cu_version.data) then
        d ++ [("conda_docker_image", optToVal (get_conda_image cu_version))]
      else d
    else d
  let d :=
    match filter_branch with
    | some fb =>
        d ++ [("filters",
          Val.vdict [("branches", Val.vdict [("only", Val.vstr fb)]),
                     ("tags", Val.vdict [("only", Val.vstr "/v[0-9]+(\\.[0-9]+)*-rc[0-9]+/")])])]
    | none => d
  ("binary_" ++ os_type ++ "_" ++ btype, Val.vdict d)

/-- `generate_upload_workflow`: builds `{f"binary_{btype}_upload": d}`. -/
def generate_upload_workflow (base_workflow_name os_type btype cu_version : String)
    (filter_branch : Option String) : Job :=
  let d : List (String × Val) :=
    [("name", Val.vstr (base_workflow_name ++ "_upload")),
     ("context", Val.vstr "org-member"),
     ("requires", Val.vlist [Val.vstr base_workflow_name])]
  let d :=
    if btype = "wheel" then
      d ++ [("subfolder", Val.vstr (if os_type = "macos" then "" else cu_version ++ "/"))]
    else d
  let d :=
    match filter_branch with
    | some fb =>
        d ++ [("filters",
          Val.vdict [("branches", Val.vdict [("only", Val.vstr fb)]),
                     ("tags", Val.vdict [("only", Val.vstr "/v[0-9]+(\\.[0-9]+)*-rc[0-9]+/")])])]
    | none => d
  ("binary_" ++ btype ++ "_upload", Val.vdict d)

/-- `workflow_pair`: the base job followed by, when uploads are enabled (and
forced off for linux wheels), the upload job.  (The smoke-test job is
commented out in the source.) -/
def workflow_pair (btype os_type python_version cu_version : String) (unicode : Bool)
    (pfx : String) (upload : Bool) (filter_branch : Option String) : List Job :=
  let unicode_suffix := if unicode then "u" else ""
  let base_workflow_name :=
    pfx ++ ("binary_" ++ os_type ++ "_" ++ btype ++ "_py" ++ python_version ++
      unicode_suffix ++ "_" ++ cu_version)
  let base :=
    generate_base_workflow base_workflow_name python_version cu_version unicode os_type btype
      filter_branch
  -- For the remaining py3.8 Linux Wheels job left around for the docs build,
  -- we'll disable uploads.
  let upload := if os_type = "linux" ∧ btype = "wheel" then false else upload
  if upload then
    [base, generate_upload_workflow base_workflow_name os_type btype cu_version filter_branch]
  else
    [base]

/-- `build_workflows` up to the construction of the job list `w` (the final
`indent`/YAML rendering of `w` is not modelled; the `indentation` parameter
only feeds that step).  Python truthiness of the branch filter (`not fb`) is
`fb` being `None` or the empty string. -/
def build_workflows (pfx : String) (filter_branch : Option String) (upload : Bool)
    (windows_latest_only : Bool) : List Job :=
  (["wheel", "conda"]).flatMap fun btype =>
    (["linux", "macos", "win"]).flatMap fun os_type =>
      let python_versions := PYTHON_VERSIONS
      let cu_versions := cu_versions_dict os_type
      python_versions.flatMap fun python_version =>
        cu_versions.flatMap fun cu_version =>
          -- ROCm conda packages not yet supported
          if "rocm".data.isPrefixOf cu_version.data ∧ btype = "conda" then []
          else
            ([false] : List Bool).flatMap fun unicode =>
              let fb := filter_branch
              let fb :=
                if windows_latest_only ∧ os_type = "win" ∧ filter_branch = none ∧
                    (python_version ≠ python_versions.getLastD "" ∨
                      cu_version ∉ [cu_versions.headD "", cu_versions.getLastD ""]) then
                  some "main"
                else fb
              let fb :=
                if (fb = none ∨ fb = some "") ∧
                    (os_type = "linux" ∧ cu_version = "cpu" ∧ btype = "wheel" ∧
                      python_version = "3.8") then
                  -- the fields must match the build_docs "requires" dependency
                  some "/.*/"
                else fb
              -- Disable all Linux Wheels Workflows from CircleCI
              if os_type = "linux" ∧ btype = "wheel" then []
              -- Disable all Macos Wheels Workflows from CircleCI.
              else if os_type = "macos" ∧ btype = "wheel" then []
              -- Disable all non-Windows Conda workflows
              else if os_type ≠ "win" ∧ btype = "conda" then []
              else
                workflow_pair btype os_type python_version cu_version unicode pfx upload fb

/-! ## Field access on job descriptors -/

/-- The descriptor dictionary of a job entry. -/
def dictOf (j : Job) : List (String × Val) :=
  match j.2 with
  | Val.vdict l => l
  | _ => []

/-- Field lookup in a job's descriptor dictionary. -/
def getField (j : Job) (key : String) : Option Val :=
  (dictOf j).lookup key

/-- The `name` field of a job descriptor (all generated descriptors have one). -/
def nameOf (j : Job) : String :=
  match getField j "name" with
  | some (Val.vstr s) => s
  | _ => ""

/-- The `requires` field of a job descriptor, as a list of names. -/
def requiresOf (j : Job) : List String :=
  match getField j "requires" with
  | some (Val.vlist vs) => vs.map fun v => match v with | Val.vstr s => s | _ => ""
  | _ => []

/-- A base job descriptor: one carrying no `requires` field (upload
descriptors always carry one). -/
def isBase (j : Job) : Bool :=
  (getField j "requires").isNone

/-- The tags entry of a filter-clause value. -/
def tagsEntry (v : Val) : Option Val :=
  match v with
  | Val.vdict l => l.lookup "tags"
  | _ => none

/-- The filter clause attached by the generators for branch filter `fb`. -/
def filtersObj (fb : String) : Val :=
  Val.vdict [("branches", Val.vdict [("only", Val.vstr fb)]),
             ("tags", Val.vdict [("only", Val.vstr RC_PATTERN)])]

/-- Default job (used with `headD`). -/
def dJob : Job := ("", Val.vdict [])

/-! ## Characterization of the expansion: only windows combinations survive -/

/-- The (package type, Python version, compute variant) triples that survive
the skip rules, in emission order: all wheel+windows combinations, then all
conda+windows combinations, Python-version major, compute-variant minor. -/
def winCombos : List (String × String × String) :=
  (["wheel", "conda"]).flatMap fun btype =>
    PYTHON_VERSIONS.flatMap fun python_version =>
      (cu_versions_dict "win").map fun cu_version => (btype, python_version, cu_version)

/-- The effective branch filter computed by `build_workflows` for a
windows-OS iteration (verbatim specialization of the two `fb` updates
at `os_type = "win"`). -/
def srcFB (windows_latest_only : Bool) (filter_branch : Option String)
    (btype python_version cu_version : String) : Option String :=
  let python_versions := PYTHON_VERSIONS
  let cu_versions := cu_versions_dict "win"
  let fb := filter_branch
  let fb :=
    if windows_latest_only ∧ "win" = "win" ∧ filter_branch = none ∧
        (python_version ≠ python_versions.getLastD "" ∨
          cu_version ∉ [cu_versions.headD "", cu_versions.getLastD ""]) then
      some "main"
    else fb
  let fb :=
    if (fb = none ∨ fb = some "") ∧
        ("win" = "linux" ∧ cu_version = "cpu" ∧ btype = "wheel" ∧
          python_version = "3.8") then
      some "/.*/"
    else fb
  fb

theorem build_workflows_eq (pfx : String) (filter_branch : Option String) (upload : Bool)
    (windows_latest_only : Bool) :
    build_workflows pfx filter_branch upload windows_latest_only =
      winCombos.flatMap fun c =>
        workflow_pair c.1 "win" c.2.1 c.2.2 false pfx upload
          (srcFB windows_latest_only filter_branch c.1 c.2.1 c.2.2) := by
  cases upload <;> rfl

/-! ## Field lemmas for the two job builders -/

theorem name_field_gbw (n py cu : String) (u : Bool) (os b : String) (fb : Option String) :
    getField (generate_base_workflow n py cu u os b fb) "name" = some (Val.vstr n) := by
  cases fb <;> simp only [generate_base_workflow] <;> split_ifs <;>
    simp [getField, dictOf, List.lookup]

theorem nameOf_gbw (n py cu : String) (u : Bool) (os b : String) (fb : Option String) :
    nameOf (generate_base_workflow n py cu u os b fb) = n := by
  simp [nameOf, name_field_gbw]

theorem name_field_guw (n os b cu : String) (fb : Option String) :
    getField (generate_upload_workflow n os b cu fb) "name" =
      some (Val.vstr (n ++ "_upload")) := by
  cases fb <;> simp only [generate_upload_workflow] <;> split_ifs <;>
    simp [getField, dictOf, List.lookup]

theorem nameOf_guw (n os b cu : String) (fb : Option String) :
    nameOf (generate_upload_workflow n os b cu fb) = n ++ "_upload" := by
  simp [nameOf, name_field_guw]

theorem requires_gbw (n py cu : String) (u : Bool) (os b : String) (fb : Option String) :
    getField (generate_base_workflow n py cu u os b fb) "requires" = none := by
  cases fb <;> simp only [generate_base_workflow] <;> split_ifs <;>
    simp [getField, dictOf, List.lookup]

theorem isBase_gbw (n py cu : String) (u : Bool) (os b : String) (fb : Option String) :
    isBase (generate_base_workflow n py cu u os b fb) = true := by
  simp [isBase, requires_gbw]

theorem requires_guw (n os b cu : String) (fb : Option String) :
    getField (generate_upload_workflow n os b cu fb) "requires" =
      some (Val.vlist [Val.vstr n]) := by
  cases fb <;> simp only [generate_upload_workflow] <;> split_ifs <;>
    simp [getField, dictOf, List.lookup]

theorem requiresOf_guw (n os b cu : String) (fb : Option String) :
    requiresOf (generate_upload_workflow n os b cu fb) = [n] := by
  simp [requiresOf, requires_guw]

theorem isBase_guw (n os b cu : String) (fb : Option String) :
    isBase (generate_upload_workflow n os b cu fb) = false := by
  simp [isBase, requires_guw]

theorem wheel_image_gbw_win (n py cu : String) (u : Bool) (b : String) (fb : Option String) :
    getField (generate_base_workflow n py cu u "win" b fb) "wheel_docker_image" = none := by
  cases fb <;> simp only [generate_base_workflow] <;> split_ifs <;>
    simp_all [getField, dictOf, List.lookup]

theorem conda_image_gbw_win (n py cu : String) (u : Bool) (b : String) (fb : Option String) :
    getField (generate_base_workflow n py cu u "win" b fb) "conda_docker_image" = none := by
  cases fb <;> simp only [generate_base_workflow] <;> split_ifs <;>
    simp_all [getField, dictOf, List.lookup]

theorem unicode_gbw_win (n py cu : String) (u : Bool) (b : String) (fb : Option String) :
    getField (generate_base_workflow n py cu u "win" b fb) "unicode_abi" = none := by
  cases fb <;> simp only [generate_base_workflow] <;> split_ifs <;>
    simp_all [getField, dictOf, List.lookup]

theorem image_fields_guw (n os b cu : String) (fb : Option String) :
    getField (generate_upload_workflow n os b cu fb) "wheel_docker_image" = none ∧
    getField (generate_upload_workflow n os b cu fb) "conda_docker_image" = none ∧
    getField (generate_upload_workflow n os b cu fb) "unicode_abi" = none := by
  cases fb <;> simp only [generate_upload_workflow] <;> split_ifs <;>
    simp [getField, dictOf, List.lookup]

theorem filters_gbw_win (n py cu : String) (u : Bool) (b : String) (fb : Option String) :
    getField (generate_base_workflow n py cu u "win" b fb) "filters" =
      (fb.map filtersObj) := by
  cases fb <;> simp only [generate_base_workflow] <;> split_ifs <;>
    simp [getField, dictOf, List.lookup, filtersObj, RC_PATTERN]

theorem filters_guw (n os b cu : String) (fb : Option String) :
    getField (generate_upload_workflow n os b cu fb) "filters" =
      (fb.map filtersObj) := by
  cases fb <;> simp only [generate_upload_workflow] <;> split_ifs <;>
    simp [getField, dictOf, List.lookup, filtersObj, RC_PATTERN]

/-! ## Shape of `workflow_pair` on windows combinations -/

theorem workflow_pair_win_true (b py cu : String) (pfx : String) (fb : Option String) :
    workflow_pair b "win" py cu false pfx true fb =
      [generate_base_workflow
          (pfx ++ ("binary_" ++ "win" ++ "_" ++ b ++ "_py" ++ py ++ "" ++ "_" ++ cu))
          py cu false "win" b fb,
       generate_upload_workflow
          (pfx ++ ("binary_" ++ "win" ++ "_" ++ b ++ "_py" ++ py ++ "" ++ "_" ++ cu))
          "win" b cu fb] := rfl

theorem workflow_pair_win_false (b py cu : String) (pfx : String) (fb : Option String) :
    workflow_pair b "win" py cu false pfx false fb =
      [generate_base_workflow
          (pfx ++ ("binary_" ++ "win" ++ "_" ++ b ++ "_py" ++ py ++ "" ++ "_" ++ cu))
          py cu false "win" b fb] := rfl

/-! ## String append cancellation -/

theorem str_append_left_cancel {p a b : String} (h : p ++ a = p ++ b) : a = b := by
  have hd : (p ++ a).data = (p ++ b).data := by rw [h]
  simp only [String.data_append] at hd
  exact String.ext (List.append_cancel_left hd)

/-! ## Names of the emitted jobs -/

/-- The base-job name suffix (after the caller prefix) for a windows
combination. -/
def bsfx (btype python_version cu_version : String) : String :=
  "binary_" ++ "win" ++ "_" ++ btype ++ "_py" ++ python_version ++ "_" ++ cu_version

/-- The name suffixes (after the caller prefix) of all jobs emitted by one
generation run, in order. -/
def emittedSuffixes (upload : Bool) : List String :=
  if upload then
    winCombos.flatMap fun c => [bsfx c.1 c.2.1 c.2.2, bsfx c.1 c.2.1 c.2.2 ++ "_upload"]
  else
    winCombos.map fun c => bsfx c.1 c.2.1 c.2.2

theorem map_name_workflow_pair_win (b py cu pfx : String) (up : Bool) (fb : Option String) :
    (workflow_pair b "win" py cu false pfx up fb).map nameOf =
      if up then [pfx ++ bsfx b py cu, pfx ++ (bsfx b py cu ++ "_upload")]
      else [pfx ++ bsfx b py cu] := by
  cases up <;>
    simp [workflow_pair_win_false, workflow_pair_win_true, nameOf_gbw, nameOf_guw, bsfx,
      String.append_assoc]

theorem flatMap_single {α β : Type} (l : List α) (f : α → β) :
    (l.flatMap fun a => [f a]) = l.map f := by
  induction l with
  | nil => rfl
  | cons a t ih => simp [ih]

theorem names_map (pfx : String) (fb : Option String) (up wlo : Bool) :
    (build_workflows pfx fb up wlo).map nameOf =
      (emittedSuffixes up).map (fun s => pfx ++ s) := by
  rw [build_workflows_eq]
  cases up <;>
    simp [emittedSuffixes, List.map_flatMap, map_name_workflow_pair_win, Function.comp,
      List.flatMap_map, List.map_flatMap]
  rw [flatMap_single winCombos fun c => pfx ++ bsfx c.1 c.2.1 c.2.2]
  simp [Function.comp_def]

theorem emittedSuffixes_nodup (up : Bool) : (emittedSuffixes up).Nodup := by
  cases up <;> decide

/-! ## Membership characterization of the emitted jobs -/

theorem workflow_pair_win_true_bsfx (b py cu pfx : String) (fb : Option String) :
    workflow_pair b "win" py cu false pfx true fb =
      [generate_base_workflow (pfx ++ bsfx b py cu) py cu false "win" b fb,
       generate_upload_workflow (pfx ++ bsfx b py cu) "win" b cu fb] := by
  rw [workflow_pair_win_true]; simp [bsfx]

theorem workflow_pair_win_false_bsfx (b py cu pfx : String) (fb : Option String) :
    workflow_pair b "win" py cu false pfx false fb =
      [generate_base_workflow (pfx ++ bsfx b py cu) py cu false "win" b fb] := by
  rw [workflow_pair_win_false]; simp [bsfx]

theorem mem_build_workflows {pfx : String} {fb : Option String} {up wlo : Bool} {j : Job}
    (hj : j ∈ build_workflows pfx fb up wlo) :
    ∃ b py cu fbv, (b, py, cu) ∈ winCombos ∧
      (j = generate_base_workflow (pfx ++ bsfx b py cu) py cu false "win" b fbv ∨
        (up = true ∧ j = generate_upload_workflow (pfx ++ bsfx b py cu) "win" b cu fbv)) := by
  rw [build_workflows_eq, List.mem_flatMap] at hj
  obtain ⟨⟨b, py, cu⟩, hc, hjc⟩ := hj
  refine ⟨b, py, cu, srcFB wlo fb b py cu, hc, ?_⟩
  cases up
  · rw [workflow_pair_win_false_bsfx] at hjc
    simp only [List.mem_singleton] at hjc
    exact Or.inl hjc
  · rw [workflow_pair_win_true_bsfx] at hjc
    simp only [List.mem_cons, List.not_mem_nil, or_false] at hjc
    rcases hjc with h | h
    · exact Or.inl h
    · exact Or.inr ⟨rfl, h⟩

theorem nameOf_mem_build {pfx : String} {fb : Option String} {up wlo : Bool} {j : Job}
    (hj : j ∈ build_workflows pfx fb up wlo) :
    ∃ s ∈ emittedSuffixes up, nameOf j = pfx ++ s := by
  have h : nameOf j ∈ (build_workflows pfx fb up wlo).map nameOf :=
    List.mem_map_of_mem nameOf hj
  rw [names_map] at h
  obtain ⟨s, hs, he⟩ := List.mem_map.mp h
  exact ⟨s, hs, he.symm⟩

theorem headD_mem {α : Type} {l : List α} (d : α) (h : 0 < l.length) : l.headD d ∈ l := by
  cases l with
  | nil => simp at h
  | cons a t => exact List.mem_cons_self a t

theorem mem_winCombos (b py cu : String) (hb : b ∈ ["wheel", "conda"])
    (hpy : py ∈ PYTHON_VERSIONS) (hcu : cu ∈ cu_versions_dict "win") :
    (b, py, cu) ∈ winCombos := by
  fin_cases hb <;> fin_cases hpy <;> fin_cases hcu <;> decide

theorem base_mem_workflow_pair_win (b py cu pfx : String) (up : Bool) (fb : Option String) :
    generate_base_workflow (pfx ++ bsfx b py cu) py cu false "win" b fb ∈
      workflow_pair b "win" py cu false pfx up fb := by
  cases up
  · rw [workflow_pair_win_false_bsfx]; exact List.mem_cons_self _ _
  · rw [workflow_pair_win_true_bsfx]; exact List.mem_cons_self _ _

/-- The effective branch filter for a windows iteration when
`windows_latest_only` is set and no explicit filter is given. -/
theorem srcFB_true_none (b py cu : String) :
    srcFB true none b py cu =
      if py ≠ PYTHON_VERSIONS.getLastD "" ∨
          cu ∉ [(cu_versions_dict "win").headD "", (cu_versions_dict "win").getLastD ""] then
        some "main"
      else none := by
  unfold srcFB
  simp

/-! ## Claims -/

/-- C3: For every generation run (any combination of the options prefix,
filter_branch, upload, windows_latest_only), the name fields of all emitted
Job Descriptors — base and upload together — are pairwise distinct. -/
theorem claim_C3_names_unique (pfx : String) (fb : Option String) (up wlo : Bool) :
    ((build_workflows pfx fb up wlo).map nameOf).Nodup := by
  rw [names_map]
  exact List.Nodup.map (fun a b h => str_append_left_cancel h) (emittedSuffixes_nodup up)

/-- C5: For the axis combination (OS=win, package type=conda, Python
version=3.9, compute variant=cu118) with empty prefix and unicode false, the
generated base Job Descriptor (the first element of `workflow_pair`, for any
upload/filter setting) has name `binary_win_conda_py3.9_cu118` and carries no
`wheel_docker_image`, no `conda_docker_image` and no `unicode_abi` field. -/
theorem claim_C5_win_conda_descriptor (up : Bool) (fb : Option String) :
    ∃ rest, workflow_pair "conda" "win" "3.9" "cu118" false "" up fb =
        generate_base_workflow "binary_win_conda_py3.9_cu118" "3.9" "cu118" false "win" "conda"
          fb :: rest ∧
      nameOf (generate_base_workflow "binary_win_conda_py3.9_cu118" "3.9" "cu118" false "win"
          "conda" fb) = "binary_win_conda_py3.9_cu118" ∧
      getField (generate_base_workflow "binary_win_conda_py3.9_cu118" "3.9" "cu118" false "win"
          "conda" fb) "wheel_docker_image" = none ∧
      getField (generate_base_workflow "binary_win_conda_py3.9_cu118" "3.9" "cu118" false "win"
          "conda" fb) "conda_docker_image" = none ∧
      getField (generate_base_workflow "binary_win_conda_py3.9_cu118" "3.9" "cu118" false "win"
          "conda" fb) "unicode_abi" = none := by
  cases up
  · exact ⟨[], rfl, nameOf_gbw _ _ _ _ _ _ _, wheel_image_gbw_win _ _ _ _ _ _,
      conda_image_gbw_win _ _ _ _ _ _, unicode_gbw_win _ _ _ _ _ _⟩
  · exact ⟨[generate_upload_workflow "binary_win_conda_py3.9_cu118" "win" "conda" "cu118" fb],
      rfl, nameOf_gbw _ _ _ _ _ _ _, wheel_image_gbw_win _ _ _ _ _ _,
      conda_image_gbw_win _ _ _ _ _ _, unicode_gbw_win _ _ _ _ _ _⟩

/-- C6: the image lookups: `get_manylinux_image "cu121" = pytorch/manylinux-cuda121`,
`get_manylinux_image "cpu" = pytorch/manylinux-cpu`,
`get_conda_image "cu117" = pytorch/conda-builder:cuda117`; generally a variant
prefixed `cu` maps to the CUDA image with the prefix stripped (for both
lookups), and a variant prefixed `rocm` maps (for `get_manylinux_image`) to
the ROCm image with the prefix stripped. -/
theorem claim_C6_image_lookup :
    get_manylinux_image "cu121" = some "pytorch/manylinux-cuda121" ∧
    get_manylinux_image "cpu" = some "pytorch/manylinux-cpu" ∧
    get_conda_image "cu117" = some "pytorch/conda-builder:cuda117" ∧
    (∀ v : String, "cu".data.isPrefixOf v.data = true →
      get_manylinux_image v = some ("pytorch/manylinux-cuda" ++ String.mk (v.data.drop 2)) ∧
      get_conda_image v = some ("pytorch/conda-builder:cuda" ++ String.mk (v.data.drop 2))) ∧
    (∀ v : String, "rocm".data.isPrefixOf v.data = true →
      get_manylinux_image v = some ("pytorch/manylinux-rocm:" ++ String.mk (v.data.drop 4))) := by
  refine ⟨by decide, by decide, by decide, ?_, ?_⟩
  · intro v h
    have hne : v ≠ "cpu" := by
      intro he; subst he; exact absurd h (by decide)
    constructor <;> simp [get_manylinux_image, get_conda_image, hne, h]
  · intro v h
    have hne : v ≠ "cpu" := by
      intro he; subst he; exact absurd h (by decide)
    have hcu : ¬ ("cu".data.isPrefixOf v.data = true) := by
      intro hc
      rw [List.isPrefixOf_iff_prefix] at h hc
      obtain ⟨t, ht⟩ := h
      obtain ⟨t2, ht2⟩ := hc
      rw [← ht] at ht2
      simp at ht2
    simp [get_manylinux_image, hne, hcu, h]

/-- C7: every Job Descriptor emitted in any generation run that carries a
Filter Clause with a tags entry has that tags entry equal to the
release-candidate pattern `{"only": RC_PATTERN}`. -/
theorem claim_C7_tags_rc (pfx : String) (fb : Option String) (up wlo : Bool) (j : Job)
    (hj : j ∈ build_workflows pfx fb up wlo) (fl tv : Val)
    (hfl : getField j "filters" = some fl) (htv : tagsEntry fl = some tv) :
    tv = Val.vdict [("only", Val.vstr RC_PATTERN)] := by
  obtain ⟨b, py, cu, fbv, hc, hj2⟩ := mem_build_workflows hj
  rcases hj2 with rfl | ⟨-, rfl⟩ <;>
    [rw [filters_gbw_win] at hfl; rw [filters_guw] at hfl] <;>
  · cases fbv with
    | none => simp at hfl
    | some f =>
      have hfl2 : filtersObj f = fl := by simpa using hfl
      subst hfl2
      simp [filtersObj, tagsEntry, List.lookup] at htv
      exact htv.symm

/-- C9 counterexample: for the non-Windows combination (linux, wheel) with
compute variant `xpu` (not `cpu`, not `cu`-prefixed, not `rocm`-prefixed),
the base descriptor's `wheel_docker_image` key is PRESENT, holding the null
value — refuting the claim that the field is absent from the mapping. -/
theorem claim_C9_counterexample :
    getField (generate_base_workflow "job" "3.8" "xpu" false "linux" "wheel" none)
        "wheel_docker_image" = some Val.vnone ∧
    (getField (generate_base_workflow "job" "3.8" "xpu" false "linux" "wheel" none)
        "wheel_docker_image").isSome = true := ⟨rfl, rfl⟩

/-- C9 (amended): for every non-Windows base Job Descriptor built from a
compute variant that is not `cpu` and starts with neither `cu` nor `rocm`,
the descriptor carries the image-reference key `wheel_docker_image` with the
null value (the lookup returns nothing), and the construction does not
fail. -/
theorem claim_C9_amended_null_image (n py cu : String) (u : Bool) (os b : String)
    (fb : Option String) (hos : os ≠ "win") (hcpu : cu ≠ "cpu")
    (hcu : "cu".data.isPrefixOf cu.data = false)
    (hrocm : "rocm".data.isPrefixOf cu.data = false) :
    getField (generate_base_workflow n py cu u os b fb) "wheel_docker_image" =
      some Val.vnone := by
  have himg : get_manylinux_image cu = none := by
    simp [get_manylinux_image, hcpu, hcu, hrocm]
  cases fb <;> simp only [generate_base_workflow] <;> split_ifs <;>
    simp_all [getField, dictOf, List.lookup, optToVal]

/-- C10: under the current axis tables and skip rules, every emitted Job
Descriptor is a windows one — its workflow kind is one of the four windows
kinds — and no emitted descriptor contains a `wheel_docker_image`,
`conda_docker_image` or `unicode_abi` field. -/
theorem claim_C10_all_windows (pfx : String) (fb : Option String) (up wlo : Bool) (j : Job)
    (hj : j ∈ build_workflows pfx fb up wlo) :
    (j.1 = "binary_win_wheel" ∨ j.1 = "binary_win_conda" ∨
      j.1 = "binary_wheel_upload" ∨ j.1 = "binary_conda_upload") ∧
    getField j "wheel_docker_image" = none ∧
    getField j "conda_docker_image" = none ∧
    getField j "unicode_abi" = none := by
  obtain ⟨b, py, cu, fbv, hc, hj2⟩ := mem_build_workflows hj
  have hb : b = "wheel" ∨ b = "conda" := by
    have hall : ∀ c ∈ winCombos, c.1 = "wheel" ∨ c.1 = "conda" := by decide
    exact hall _ hc
  rcases hj2 with rfl | ⟨-, rfl⟩
  · refine ⟨?_, wheel_image_gbw_win _ _ _ _ _ _, conda_image_gbw_win _ _ _ _ _ _,
      unicode_gbw_win _ _ _ _ _ _⟩
    rcases hb with rfl | rfl
    · exact Or.inl rfl
    · exact Or.inr (Or.inl rfl)
  · obtain ⟨h1, h2, h3⟩ := image_fields_guw (pfx ++ bsfx b py cu) "win" b cu fbv
    refine ⟨?_, h1, h2, h3⟩
    rcases hb with rfl | rfl
    · exact Or.inr (Or.inr (Or.inl rfl))
    · exact Or.inr (Or.inr (Or.inr rfl))

/-- C1: for every axis combination matching one of the stated skip rules —
wheel+linux, wheel+macos, conda+non-windows, conda+ROCm — `build_workflows`
emits no Job Descriptor (neither base nor upload) for that combination, for
any option settings: no emitted job bears that combination's base name or its
upload name. -/
theorem claim_C1_skipped_combinations (pfx : String) (fb : Option String) (up wlo : Bool)
    (btype os py cu : String)
    (hb : btype ∈ ["wheel", "conda"]) (ho : os ∈ ["linux", "macos", "win"])
    (hpy : py ∈ PYTHON_VERSIONS) (hcu : cu ∈ cu_versions_dict os)
    (hskip : (btype = "wheel" ∧ (os = "linux" ∨ os = "macos")) ∨
      (btype = "conda" ∧ os ≠ "win") ∨
      (btype = "conda" ∧ "rocm".data.isPrefixOf cu.data = true))
    (j : Job) (hj : j ∈ build_workflows pfx fb up wlo) :
    nameOf j ≠ pfx ++ ("binary_" ++ os ++ "_" ++ btype ++ "_py" ++ py ++ "_" ++ cu) ∧
    nameOf j ≠ pfx ++ ("binary_" ++ os ++ "_" ++ btype ++ "_py" ++ py ++ "_" ++ cu ++
      "_upload") := by
  obtain ⟨s, hs, hname⟩ := nameOf_mem_build hj
  have key : ∀ b' ∈ ["wheel", "conda"], ∀ o' ∈ ["linux", "macos", "win"],
      ∀ p' ∈ PYTHON_VERSIONS, ∀ c' ∈ cu_versions_dict o',
      ((b' = "wheel" ∧ (o' = "linux" ∨ o' = "macos")) ∨ (b' = "conda" ∧ o' ≠ "win") ∨
        (b' = "conda" ∧ "rocm".data.isPrefixOf c'.data = true)) →
      ∀ s' ∈ emittedSuffixes up,
        s' ≠ "binary_" ++ o' ++ "_" ++ b' ++ "_py" ++ p' ++ "_" ++ c' ∧
        s' ≠ "binary_" ++ o' ++ "_" ++ b' ++ "_py" ++ p' ++ "_" ++ c' ++ "_upload" := by
    cases up <;> decide
  have hk := key btype hb os ho py hpy cu hcu hskip s hs
  rw [hname]
  exact ⟨fun h => hk.1 (str_append_left_cancel h),
    fun h => hk.2 (str_append_left_cancel h)⟩

/-- C2 counterexample: with empty prefix, no branch filter, uploads enabled
and `windows_latest_only` off, no emitted Job Descriptor is named
`binary_linux_wheel_py3.8_cpu` — the linux/wheel/cpu/3.8 combination yields
no base descriptor at all, contradicting the claimed wildcard-filtered base
descriptor. -/
theorem claim_C2_counterexample :
    ((build_workflows "" none true false).map nameOf).all
      (fun s => s != "binary_linux_wheel_py3.8_cpu") = true := by decide

/-- C2 (amended): for every generation run, regardless of options, the
combination (OS=linux, package type=wheel, compute variant=cpu, Python
version=3.8) yields no Job Descriptor at all — linux wheel workflows are
disabled after the branch-filter override is computed — so in particular no
base descriptor (with any filter) and no upload descriptor is emitted for
it. -/
theorem claim_C2_amended_anchor_absent (pfx : String) (fb : Option String) (up wlo : Bool)
    (j : Job) (hj : j ∈ build_workflows pfx fb up wlo) :
    nameOf j ≠ pfx ++ "binary_linux_wheel_py3.8_cpu" ∧
    nameOf j ≠ pfx ++ "binary_linux_wheel_py3.8_cpu_upload" := by
  obtain ⟨s, hs, hname⟩ := nameOf_mem_build hj
  have key : ∀ s' ∈ emittedSuffixes up,
      s' ≠ "binary_linux_wheel_py3.8_cpu" ∧ s' ≠ "binary_linux_wheel_py3.8_cpu_upload" := by
    cases up <;> decide
  have hk := key s hs
  rw [hname]
  exact ⟨fun h => hk.1 (str_append_left_cancel h),
    fun h => hk.2 (str_append_left_cancel h)⟩

/-- C8: for every combination processed with `windows_latest_only` set,
OS=win and no explicit branch filter: the emitted base descriptor for the
combination carries branch filter `main` when the Python version is not the
newest or the compute variant is neither first nor last of the windows list;
otherwise no Filter Clause is attached. -/
theorem claim_C8_windows_latest_only (pfx : String) (up : Bool) (btype py cu : String)
    (hb : btype ∈ ["wheel", "conda"]) (hpy : py ∈ PYTHON_VERSIONS)
    (hcu : cu ∈ cu_versions_dict "win") :
    ∃ j ∈ build_workflows pfx none up true,
      j = generate_base_workflow (pfx ++ bsfx btype py cu) py cu false "win" btype
            (srcFB true none btype py cu) ∧
      ((py ≠ PYTHON_VERSIONS.getLastD "" ∨
          cu ∉ [(cu_versions_dict "win").headD "", (cu_versions_dict "win").getLastD ""]) →
        getField j "filters" = some (filtersObj "main")) ∧
      (¬ (py ≠ PYTHON_VERSIONS.getLastD "" ∨
          cu ∉ [(cu_versions_dict "win").headD "", (cu_versions_dict "win").getLastD ""]) →
        getField j "filters" = none) := by
  refine ⟨_, ?_, rfl, ?_, ?_⟩
  · rw [build_workflows_eq]
    exact List.mem_flatMap_of_mem (mem_winCombos _ _ _ hb hpy hcu)
      (base_mem_workflow_pair_win _ _ _ _ _ _)
  · intro hC
    rw [filters_gbw_win, srcFB_true_none, if_pos hC]
    rfl
  · intro hC
    rw [filters_gbw_win, srcFB_true_none, if_neg hC]
    rfl

/-! ## Upload job dependencies (C4) -/

set_option maxHeartbeats 1000000 in
theorem upload_aux (pfx : String) (f : String × String × String → Option String) :
    ∀ L : List (String × String × String),
      (L.map fun c => bsfx c.1 c.2.1 c.2.2).Nodup →
      ∀ l1 u l2,
        (L.flatMap fun c =>
          [generate_base_workflow (pfx ++ bsfx c.1 c.2.1 c.2.2) c.2.1 c.2.2 false "win" c.1
             (f c),
           generate_upload_workflow (pfx ++ bsfx c.1 c.2.1 c.2.2) "win" c.1 c.2.2 (f c)]) =
          l1 ++ u :: l2 →
        isBase u = false →
        ∃ c, c ∈ L ∧ requiresOf u = [pfx ++ bsfx c.1 c.2.1 c.2.2] ∧
          l1.countP (fun x => isBase x && (nameOf x == pfx ++ bsfx c.1 c.2.1 c.2.2)) = 1 := by
  intro L
  induction L with
  | nil =>
    intro _ l1 u l2 h _
    cases l1 <;> simp at h
  | cons c L ih =>
    intro hnd l1 u l2 h hu
    rw [List.flatMap_cons] at h
    simp only [List.cons_append, List.nil_append] at h
    rw [List.map_cons] at hnd
    obtain ⟨hbc, hrest⟩ := List.nodup_cons.mp hnd
    cases l1 with
    | nil =>
      simp only [List.nil_append, List.cons.injEq] at h
      obtain ⟨hB, -⟩ := h
      rw [← hB, isBase_gbw] at hu
      simp at hu
    | cons a l1 =>
      simp only [List.cons_append, List.cons.injEq] at h
      obtain ⟨ha, h⟩ := h
      cases l1 with
      | nil =>
        simp only [List.nil_append, List.cons.injEq] at h
        obtain ⟨hU, -⟩ := h
        refine ⟨c, List.mem_cons_self _ _, ?_, ?_⟩
        · rw [← hU, requiresOf_guw]
        · rw [← ha]
          simp [List.countP_cons, isBase_gbw, nameOf_gbw, List.countP_nil]
      | cons a2 l1 =>
        simp only [List.cons_append, List.cons.injEq] at h
        obtain ⟨ha2, hrec⟩ := h
        obtain ⟨c', hc', hreq, hcnt⟩ := ih hrest l1 u l2 hrec hu
        refine ⟨c', List.mem_cons_of_mem _ hc', hreq, ?_⟩
        have hne : bsfx c.1 c.2.1 c.2.2 ≠ bsfx c'.1 c'.2.1 c'.2.2 := by
          intro he
          have hmem2 : bsfx c'.1 c'.2.1 c'.2.2 ∈
              List.map (fun x => bsfx x.1 x.2.1 x.2.2) L :=
            List.mem_map_of_mem _ hc'
          rw [← he] at hmem2
          exact hbc hmem2
        have hnameNe : pfx ++ bsfx c.1 c.2.1 c.2.2 ≠ pfx ++ bsfx c'.1 c'.2.1 c'.2.2 :=
          fun h => hne (str_append_left_cancel h)
        rw [← ha, ← ha2]
        rw [List.countP_cons, List.countP_cons]
        simp [isBase_gbw, isBase_guw, nameOf_gbw, hnameNe, hcnt]

/-- C4: every upload Job Descriptor emitted in a generation run (a job
carrying a `requires` field) requires exactly one name, and that name is the
name of exactly one base Job Descriptor emitted at a strictly earlier
position of the same output sequence. -/
theorem claim_C4_upload_requires (pfx : String) (fb : Option String) (up wlo : Bool)
    (l1 : List Job) (u : Job) (l2 : List Job)
    (hsplit : build_workflows pfx fb up wlo = l1 ++ u :: l2)
    (hu : isBase u = false) :
    ∃ r, requiresOf u = [r] ∧
      l1.countP (fun x => isBase x && (nameOf x == r)) = 1 := by
  cases up with
  | false =>
    exfalso
    have hmem : u ∈ build_workflows pfx fb false wlo := by
      rw [hsplit]
      exact List.mem_append_right _ (List.mem_cons_self _ _)
    obtain ⟨b, py, cu, fbv, hc, hj2⟩ := mem_build_workflows hmem
    rcases hj2 with rfl | ⟨hfalse, -⟩
    · rw [isBase_gbw] at hu; simp at hu
    · simp at hfalse
  | true =>
    rw [build_workflows_eq] at hsplit
    have heq : (winCombos.flatMap fun c =>
          workflow_pair c.1 "win" c.2.1 c.2.2 false pfx true (srcFB wlo fb c.1 c.2.1 c.2.2)) =
        winCombos.flatMap fun c =>
          [generate_base_workflow (pfx ++ bsfx c.1 c.2.1 c.2.2) c.2.1 c.2.2 false "win" c.1
             (srcFB wlo fb c.1 c.2.1 c.2.2),
           generate_upload_workflow (pfx ++ bsfx c.1 c.2.1 c.2.2) "win" c.1 c.2.2
             (srcFB wlo fb c.1 c.2.1 c.2.2)] := by
      simp only [workflow_pair_win_true_bsfx]
    rw [heq] at hsplit
    obtain ⟨c', hc', hreq, hcnt⟩ :=
      upload_aux pfx (fun c => srcFB wlo fb c.1 c.2.1 c.2.2) winCombos (by decide) l1 u l2
        hsplit hu
    exact ⟨pfx ++ bsfx c'.1 c'.2.1 c'.2.2, hreq, hcnt⟩

/-! ## Witnesses: each hypothesis-bearing claim theorem applied at a concrete
input -/

/-- Witness for C1 at the skipped combination (wheel, linux, 3.8, cpu). -/
theorem claim_C1_skipped_combinations_witness :
    nameOf ((build_workflows "" none false false).headD dJob) ≠
      "" ++ ("binary_" ++ "linux" ++ "_" ++ "wheel" ++ "_py" ++ "3.8" ++ "_" ++ "cpu") ∧
    nameOf ((build_workflows "" none false false).headD dJob) ≠
      "" ++ ("binary_" ++ "linux" ++ "_" ++ "wheel" ++ "_py" ++ "3.8" ++ "_" ++ "cpu" ++
        "_upload") :=
  claim_C1_skipped_combinations "" none false false "wheel" "linux" "3.8" "cpu"
    (by decide) (by decide) (by decide) (by decide) (Or.inl ⟨rfl, Or.inl rfl⟩) _
    (headD_mem dJob (by decide))

/-- Witness for the amended C2 at the first emitted job. -/
theorem claim_C2_amended_anchor_absent_witness :
    nameOf ((build_workflows "" none true false).headD dJob) ≠
      "" ++ "binary_linux_wheel_py3.8_cpu" ∧
    nameOf ((build_workflows "" none true false).headD dJob) ≠
      "" ++ "binary_linux_wheel_py3.8_cpu_upload" :=
  claim_C2_amended_anchor_absent "" none true false _ (headD_mem dJob (by decide))

/-- Witness for C4 at the first upload job of an upload-enabled run. -/
theorem claim_C4_upload_requires_witness :
    ∃ r, requiresOf ((build_workflows "" none true false).tail.headD dJob) = [r] ∧
      ((build_workflows "" none true false).take 1).countP
        (fun x => isBase x && (nameOf x == r)) = 1 :=
  claim_C4_upload_requires "" none true false ((build_workflows "" none true false).take 1)
    ((build_workflows "" none true false).tail.headD dJob)
    ((build_workflows "" none true false).drop 2) (by rfl) (by rfl)

/-- Witness for C6's conditional parts at `cu118` and `rocm5.2`. -/
theorem claim_C6_image_lookup_witness :
    ("cu".data.isPrefixOf "cu118".data = true) ∧
    get_manylinux_image "cu118" =
      some ("pytorch/manylinux-cuda" ++ String.mk ("cu118".data.drop 2)) ∧
    ("rocm".data.isPrefixOf "rocm5.2".data = true) ∧
    get_manylinux_image "rocm5.2" =
      some ("pytorch/manylinux-rocm:" ++ String.mk ("rocm5.2".data.drop 4)) :=
  ⟨by decide, (claim_C6_image_lookup.2.2.2.1 "cu118" (by decide)).1, by decide,
    claim_C6_image_lookup.2.2.2.2 "rocm5.2" (by decide)⟩

/-- Witness for C7 at the first job of a run with branch filter `nightly`. -/
theorem claim_C7_tags_rc_witness :
    getField ((build_workflows "" (some "nightly") false false).headD dJob) "filters" =
      some (filtersObj "nightly") ∧
    tagsEntry (filtersObj "nightly") = some (Val.vdict [("only", Val.vstr RC_PATTERN)]) ∧
    Val.vdict [("only", Val.vstr RC_PATTERN)] = Val.vdict [("only", Val.vstr RC_PATTERN)] :=
  ⟨rfl, rfl,
    claim_C7_tags_rc "" (some "nightly") false false _ (headD_mem dJob (by decide))
      (filtersObj "nightly") (Val.vdict [("only", Val.vstr RC_PATTERN)]) rfl rfl⟩

/-- Witness for C8 at (wheel, 3.8, cu117): non-newest Python, so the branch
filter is forced to `main`. -/
theorem claim_C8_windows_latest_only_witness :
    ∃ j ∈ build_workflows "" none false true,
      j = generate_base_workflow ("" ++ bsfx "wheel" "3.8" "cu117") "3.8" "cu117" false "win"
            "wheel" (srcFB true none "wheel" "3.8" "cu117") ∧
      (("3.8" ≠ PYTHON_VERSIONS.getLastD "" ∨
          "cu117" ∉ [(cu_versions_dict "win").headD "", (cu_versions_dict "win").getLastD ""]) →
        getField j "filters" = some (filtersObj "main")) ∧
      (¬ ("3.8" ≠ PYTHON_VERSIONS.getLastD "" ∨
          "cu117" ∉ [(cu_versions_dict "win").headD "", (cu_versions_dict "win").getLastD ""]) →
        getField j "filters" = none) :=
  claim_C8_windows_latest_only "" false "wheel" "3.8" "cu117" (by decide) (by decide)
    (by decide)

/-- Witness for the amended C9 at the (linux, wheel, xpu) descriptor. -/
theorem claim_C9_amended_null_image_witness :
    getField (generate_base_workflow "job" "3.8" "xpu" false "linux" "wheel" none)
      "wheel_docker_image" = some Val.vnone :=
  claim_C9_amended_null_image "job" "3.8" "xpu" false "linux" "wheel" none
    (by decide) (by decide) (by decide) (by decide)

/-- Witness for C10 at the first emitted job. -/
theorem claim_C10_all_windows_witness :
    (((build_workflows "" none false false).headD dJob).1 = "binary_win_wheel" ∨
      ((build_workflows "" none false false).headD dJob).1 = "binary_win_conda" ∨
      ((build_workflows "" none false false).headD dJob).1 = "binary_wheel_upload" ∨
      ((build_workflows "" none false false).headD dJob).1 = "binary_conda_upload") ∧
    getField ((build_workflows "" none false false).headD dJob) "wheel_docker_image" = none ∧
    getField ((build_workflows "" none false false).headD dJob) "conda_docker_image" = none ∧
    getField ((build_workflows "" none false false).headD dJob) "unicode_abi" = none :=
  claim_C10_all_windows "" none false false _ (headD_mem dJob (by decide))
